import Mathlib

/-! Verification of `chaospy/distributions/collection/sample_dist.py`: the
KDE-backed distribution `sample_dist` and its public entry point `SampleDist`.
Numeric values are modelled as rationals; the externally fitted kernel
(`scipy.stats.gaussian_kde`) is abstracted as a pair of functions, since only
its interface is visible to this module. -/

/-- A fitted kernel density estimator, as produced by the external
`scipy.stats.gaussian_kde(samples, bw_method="scott")`: `integ0 x` models
`kernel.integrate_box_1d(0, x)`, the integral of the fitted density from the
fixed anchor 0 to `x`, and `dens x` models `kernel(x)`, pointwise density
evaluation. -/
structure Kernel where
  integ0 : ℚ → ℚ
  dens : ℚ → ℚ

/-- The error `numpy.linalg.LinAlgError`, raised by `gaussian_kde` when the
dataset covariance is a singular matrix. -/
inductive LinAlgError where
  | singularMatrix : LinAlgError
deriving DecidableEq

/-- State of a `sample_dist` instance after `__init__`: the fields assigned
there (`samples`, `kernel`, `flo`, `fup`) together with the bounds `lo`, `up`
recorded by the base-class initializer `Dist.__init__(lo=lo, up=up)`. -/
structure sample_dist where
  samples : List ℚ
  kernel : Kernel
  flo : ℚ
  fup : ℚ
  lo : ℚ
  up : ℚ

/-- `sample_dist.__init__(samples, lo, up)`, given the kernel returned by the
external fit: stores samples and kernel and caches
`flo = kernel.integrate_box_1d(0, lo)` and `fup = kernel.integrate_box_1d(0, up)`. -/
def sample_dist.make (kernel : Kernel) (samples : List ℚ) (lo up : ℚ) : sample_dist :=
  { samples := samples
    kernel := kernel
    flo := kernel.integ0 lo
    fup := kernel.integ0 up
    lo := lo
    up := up }

/-- The first pass of `sample_dist._cdf`: for each row `i` of `x` it computes
`[self.kernel.integrate_box_1d(0, x_i) for x_i in x[i]]`. -/
def sample_dist.cdfRaw (d : sample_dist) (x : List (List ℚ)) : List (List ℚ) :=
  x.map (fun row => row.map (fun xi => d.kernel.integ0 xi))

/-- `sample_dist._cdf(x, lo, up)`: the raw kernel integrals per entry, then
the elementwise rescaling `cdf_vals = (cdf_vals - self.flo) / (self.fup - self.flo)`. -/
def sample_dist.cdf (d : sample_dist) (x : List (List ℚ)) : List (List ℚ) :=
  (d.cdfRaw x).map (fun row => row.map (fun v => (v - d.flo) / (d.fup - d.flo)))

/-- `sample_dist._pdf(x, lo, up)`: `return self.kernel(x)`, the kernel density
evaluated at each point of `x`. -/
def sample_dist.pdf (d : sample_dist) (x : List ℚ) : List ℚ :=
  x.map (fun xi => d.kernel.dens xi)

/-- `sample_dist._bnd(x, lo, up)`: `return (lo, up)`, for whatever arguments
the framework passes. -/
def bndRaw (x : List ℚ) (lo up : ℚ) : ℚ × ℚ := (lo, up)

/-- The bounds query on an instance: the framework calls `_bnd` with the
stored `lo` and `up` recorded at construction. -/
def sample_dist.bnd (d : sample_dist) (x : List ℚ) : ℚ × ℚ :=
  bndRaw x d.lo d.up

/-- The rescaled cumulative value of a single scalar entry, as `_cdf` produces
it elementwise. -/
def sample_dist.cdfAt (d : sample_dist) (xi : ℚ) : ℚ :=
  (d.kernel.integ0 xi - d.flo) / (d.fup - d.flo)

/-- `_cdf` as an explicit state transformer: a Python method receives `self`
and could rebind its fields, but the body of `_cdf` assigns only the local
`cdf_vals`, so the embedded method returns the instance it received. -/
def sample_dist.cdfM (d : sample_dist) (x : List (List ℚ)) :
    List (List ℚ) × sample_dist :=
  (d.cdf x, d)

/-- `_pdf` as an explicit state transformer; its body contains no field
assignment. -/
def sample_dist.pdfM (d : sample_dist) (x : List ℚ) : List ℚ × sample_dist :=
  (d.pdf x, d)

/-- `_bnd` as an explicit state transformer; its body contains no field
assignment. -/
def sample_dist.bndM (d : sample_dist) (x : List ℚ) : (ℚ × ℚ) × sample_dist :=
  (d.bnd x, d)

/-- `numpy.asarray(samples).min()` for a one-dimensional array. `numpy` raises
on an empty array; the `[]` branch is a junk value never reached by the
claims, which concern nonempty sample lists. -/
def sampleMin : List ℚ → ℚ
  | [] => 0
  | h :: t => t.foldl min h

/-- `numpy.asarray(samples).max()` for a one-dimensional array; the `[]`
branch is junk as in `sampleMin`. -/
def sampleMax : List ℚ → ℚ
  | [] => 0
  | h :: t => t.foldl max h

/-- Extended numeric value, used to express the `numpy.inf` bounds passed to
the fallback distribution. -/
inductive NumVal where
  | ninf : NumVal
  | fin : ℚ → NumVal
  | pinf : NumVal
deriving DecidableEq

/-- Modelled from the spec: the `Uniform` distribution class (module
`chaospy.distributions.collection.uniform`) is not among the sources; the
spec describes the fallback as the improper uniform distribution over the
unbounded interval, so only its constructor arguments `lower` and `upper` are
modelled. -/
structure Uniform where
  lower : NumVal
  upper : NumVal
deriving DecidableEq

/-- Result of the public entry point: either the KDE-backed distribution or
the fallback `Uniform`. -/
inductive BuiltDist where
  | kde : sample_dist → BuiltDist
  | fallback : Uniform → BuiltDist

/-- The public entry point `SampleDist(samples, lo=None, up=None)`: defaults
the bounds to the sample minimum and maximum, then constructs `sample_dist`;
the `try/except numpy.linalg.LinAlgError` around the construction is modelled
by matching on the result of the external fitting routine `gaussian_kde`,
passed here as a function returning either a fitted kernel or the error it
raises on a singular dataset. -/
def SampleDist (gaussian_kde : List ℚ → Except LinAlgError Kernel)
    (samples : List ℚ) (lo up : Option ℚ) : BuiltDist :=
  let lo := lo.getD (sampleMin samples)
  let up := up.getD (sampleMax samples)
  match gaussian_kde samples with
  | Except.ok kernel => BuiltDist.kde (sample_dist.make kernel samples lo up)
  | Except.error _ => BuiltDist.fallback { lower := NumVal.ninf, upper := NumVal.pinf }

/-- The cumulative evaluation exactly as the spec words it, for comparison
with the implementation: per scalar entry the kernel integral from 0 to the
entry, rescaled as `(raw - cdfLower) / (cdfUpper - cdfLower)` where
`cdfLower` and `cdfUpper` are the kernel integrals from 0 to the bounds. -/
def cdfSpec (k : Kernel) (lo up : ℚ) (x : List (List ℚ)) : List (List ℚ) :=
  x.map (fun row => row.map
    (fun xi => (k.integ0 xi - k.integ0 lo) / (k.integ0 up - k.integ0 lo)))

/-- A concrete kernel used to instantiate witnesses: its anchored integral is
the identity and its density is constantly 1. -/
def idKernel : Kernel :=
  { integ0 := fun x => x
    dens := fun _ => 1 }

/-- A fitting routine for witnesses that always fails with the
singular-matrix error. -/
def gkFail : List ℚ → Except LinAlgError Kernel :=
  fun _ => Except.error LinAlgError.singularMatrix

/-- A fitting routine for witnesses that always succeeds with `idKernel`. -/
def gkOk : List ℚ → Except LinAlgError Kernel :=
  fun _ => Except.ok idKernel

lemma sample_dist.cdf_eq_map (d : sample_dist) (x : List (List ℚ)) :
    d.cdf x = x.map (fun row => row.map d.cdfAt) := by
  simp [sample_dist.cdf, sample_dist.cdfRaw, sample_dist.cdfAt,
    List.map_map, Function.comp]

lemma foldl_min_mem (t : List ℚ) (a : ℚ) : t.foldl min a ∈ a :: t := by
  induction t generalizing a with
  | nil => simp
  | cons b t2 ih =>
      simp only [List.foldl_cons]
      rcases List.mem_cons.mp (ih (min a b)) with h | h
      · rcases min_choice a b with hc | hc
        · rw [h, hc]; simp
        · rw [h, hc]; simp
      · exact List.mem_cons_of_mem _ (List.mem_cons_of_mem _ h)

lemma foldl_min_le (t : List ℚ) (a : ℚ) : ∀ y ∈ a :: t, t.foldl min a ≤ y := by
  induction t generalizing a with
  | nil =>
      intro y hy
      rw [List.mem_singleton] at hy
      simp [hy]
  | cons b t2 ih =>
      intro y hy
      simp only [List.foldl_cons]
      rcases List.mem_cons.mp hy with h1 | h1
      · rw [h1]
        exact le_trans (ih (min a b) (min a b) (List.mem_cons_self _ _))
          (min_le_left a b)
      · rcases List.mem_cons.mp h1 with h2 | h2
        · rw [h2]
          exact le_trans (ih (min a b) (min a b) (List.mem_cons_self _ _))
            (min_le_right a b)
        · exact ih (min a b) y (List.mem_cons_of_mem _ h2)

lemma foldl_max_mem (t : List ℚ) (a : ℚ) : t.foldl max a ∈ a :: t := by
  induction t generalizing a with
  | nil => simp
  | cons b t2 ih =>
      simp only [List.foldl_cons]
      rcases List.mem_cons.mp (ih (max a b)) with h | h
      · rcases max_choice a b with hc | hc
        · rw [h, hc]; simp
        · rw [h, hc]; simp
      · exact List.mem_cons_of_mem _ (List.mem_cons_of_mem _ h)

lemma le_foldl_max (t : List ℚ) (a : ℚ) : ∀ y ∈ a :: t, y ≤ t.foldl max a := by
  induction t generalizing a with
  | nil =>
      intro y hy
      rw [List.mem_singleton] at hy
      simp [hy]
  | cons b t2 ih =>
      intro y hy
      simp only [List.foldl_cons]
      rcases List.mem_cons.mp hy with h1 | h1
      · rw [h1]
        exact le_trans (le_max_left a b)
          (ih (max a b) (max a b) (List.mem_cons_self _ _))
      · rcases List.mem_cons.mp h1 with h2 | h2
        · rw [h2]
          exact le_trans (le_max_right a b)
            (ih (max a b) (max a b) (List.mem_cons_self _ _))
        · exact ih (max a b) y (List.mem_cons_of_mem _ h2)

/-- Claim C1: on a non-degenerate instance (the cached kernel integrals at the
two bounds differ), the cumulative evaluation at exactly the stored lower
bound returns 0 and at exactly the stored upper bound returns 1, because of
the affine rescaling by the constructor-cached `flo` and `fup`. -/
theorem c1_cdf_hits_zero_and_one (k : Kernel) (samples : List ℚ) (lo up : ℚ)
    (hnd : k.integ0 lo ≠ k.integ0 up) :
    (sample_dist.make k samples lo up).cdf [[lo]] = [[0]] ∧
    (sample_dist.make k samples lo up).cdf [[up]] = [[1]] := by
  constructor
  · simp [sample_dist.cdf, sample_dist.cdfRaw, sample_dist.make]
  · simp only [sample_dist.cdf, sample_dist.cdfRaw, sample_dist.make, List.map]
    rw [div_self (sub_ne_zero.mpr (fun h => hnd h.symm))]

theorem c1_witness :
    idKernel.integ0 0 ≠ idKernel.integ0 1 ∧
    ((sample_dist.make idKernel [] 0 1).cdf [[0]] = [[0]] ∧
     (sample_dist.make idKernel [] 0 1).cdf [[1]] = [[1]]) :=
  ⟨by norm_num [idKernel], c1_cdf_hits_zero_and_one idKernel [] 0 1 (by norm_num [idKernel])⟩

/-- Claim C2: the cumulative evaluation computes, per scalar entry of each
row, the kernel integral from the fixed anchor 0 to the entry and rescales by
`(raw - flo) / (fup - flo)`, where the constructor-cached `flo` and `fup` are
exactly the kernel integrals from 0 to the lower and upper bound: the
implementation coincides with the formula the spec states. -/
theorem c2_cdf_formula (k : Kernel) (samples : List ℚ) (lo up : ℚ)
    (x : List (List ℚ)) :
    (sample_dist.make k samples lo up).flo = k.integ0 lo ∧
    (sample_dist.make k samples lo up).fup = k.integ0 up ∧
    (sample_dist.make k samples lo up).cdf x = cdfSpec k lo up x := by
  refine ⟨rfl, rfl, ?_⟩
  simp [sample_dist.cdf, sample_dist.cdfRaw, cdfSpec, sample_dist.make,
    List.map_map, Function.comp]

/-- Claim C3: whenever kernel fitting fails with the singular-matrix error,
the public entry point returns the fallback uniform distribution over the
unbounded interval; `SampleDist` is a total function into `BuiltDist`, so the
failure never reaches the caller as an exception. -/
theorem c3_fallback (gk : List ℚ → Except LinAlgError Kernel)
    (samples : List ℚ) (lo up : Option ℚ) (e : LinAlgError)
    (h : gk samples = Except.error e) :
    SampleDist gk samples lo up =
      BuiltDist.fallback { lower := NumVal.ninf, upper := NumVal.pinf } := by
  simp [SampleDist, h]

theorem c3_witness :
    gkFail [1, 1, 1] = Except.error LinAlgError.singularMatrix ∧
    SampleDist gkFail [1, 1, 1] none none =
      BuiltDist.fallback { lower := NumVal.ninf, upper := NumVal.pinf } :=
  ⟨rfl, c3_fallback gkFail [1, 1, 1] none none LinAlgError.singularMatrix rfl⟩

/-- Claim C4: the density evaluation returns the kernel density applied
directly to each point, with no dependence on the cached `flo` and `fup`
(hence no division by `fup - flo`): instances sharing a kernel but differing
in bounds give identical densities, and on a concrete instance whose divisor
`fup - flo` equals 2 the returned density is still the raw kernel value 1,
not 1/2. -/
theorem c4_pdf_unrescaled (k : Kernel) (s t : List ℚ) (lo up lo2 up2 : ℚ)
    (x : List ℚ) :
    (sample_dist.make k s lo up).pdf x = x.map k.dens ∧
    (sample_dist.make k s lo up).pdf x = (sample_dist.make k t lo2 up2).pdf x ∧
    ((sample_dist.make idKernel [] 0 2).fup -
      (sample_dist.make idKernel [] 0 2).flo = 2 ∧
     (sample_dist.make idKernel [] 0 2).pdf [5] = [1]) :=
  ⟨rfl, rfl, by norm_num [sample_dist.make, idKernel], rfl⟩

/-- Claim C5: on a non-degenerate instance (cached integral strictly smaller
at the lower bound than at the upper bound) whose kernel integral is
non-decreasing, the cumulative evaluation is non-decreasing between query
points lying inside the declared bounds. -/
theorem c5_cdf_monotone (k : Kernel) (s : List ℚ) (lo up a b ra rb : ℚ)
    (hmono : ∀ u v : ℚ, u ≤ v → k.integ0 u ≤ k.integ0 v)
    (hnd : k.integ0 lo < k.integ0 up)
    (hla : lo ≤ a) (hab : a ≤ b) (hbu : b ≤ up)
    (ha : (sample_dist.make k s lo up).cdf [[a]] = [[ra]])
    (hb : (sample_dist.make k s lo up).cdf [[b]] = [[rb]]) :
    ra ≤ rb := by
  simp only [sample_dist.cdf, sample_dist.cdfRaw, sample_dist.make, List.map,
    List.cons.injEq, and_true] at ha hb
  rw [← ha, ← hb]
  have hpos : (0 : ℚ) < k.integ0 up - k.integ0 lo := sub_pos.mpr hnd
  exact (div_le_div_iff_of_pos_right hpos).mpr (sub_le_sub_right (hmono a b hab) _)

theorem c5_witness :
    (∀ u v : ℚ, u ≤ v → idKernel.integ0 u ≤ idKernel.integ0 v) ∧
    idKernel.integ0 0 < idKernel.integ0 1 ∧
    (0 : ℚ) ≤ 0 ∧ (0 : ℚ) ≤ 1/2 ∧ (1/2 : ℚ) ≤ 1 ∧
    (sample_dist.make idKernel [] 0 1).cdf [[0]] = [[0]] ∧
    (sample_dist.make idKernel [] 0 1).cdf [[1/2]] = [[1/2]] ∧
    (0 : ℚ) ≤ 1/2 :=
  ⟨fun u v h => h, by norm_num [idKernel], by norm_num, by norm_num, by norm_num,
    by norm_num [sample_dist.cdf, sample_dist.cdfRaw, sample_dist.make, idKernel],
    by norm_num [sample_dist.cdf, sample_dist.cdfRaw, sample_dist.make, idKernel],
    c5_cdf_monotone idKernel [] 0 1 0 (1/2) 0 (1/2) (fun u v h => h)
      (by norm_num [idKernel]) (by norm_num) (by norm_num) (by norm_num)
      (by norm_num [sample_dist.cdf, sample_dist.cdfRaw, sample_dist.make, idKernel])
      (by norm_num [sample_dist.cdf, sample_dist.cdfRaw, sample_dist.make, idKernel])⟩

/-- Claim C6: the cumulative evaluation preserves the shape of the query
array and applies the same linear rescaling to every entry whether or not it
lies inside the declared bounds, with no clamping: on a concrete instance
with bounds 0 and 1, the query point 2 outside the bounds evaluates to 2,
outside the interval from 0 to 1. -/
theorem c6_shape_no_clamp (d : sample_dist) (x : List (List ℚ)) :
    (d.cdf x).map List.length = x.map List.length ∧
    d.cdf x = x.map (fun row => row.map d.cdfAt) ∧
    (sample_dist.make idKernel [] 0 1).cdf [[2]] = [[2]] := by
  refine ⟨?_, d.cdf_eq_map x,
    by norm_num [sample_dist.cdf, sample_dist.cdfRaw, sample_dist.make, idKernel]⟩
  simp [sample_dist.cdf, sample_dist.cdfRaw, List.map_map, Function.comp]

/-- Claim C7: the bounds query returns exactly the pair recorded at
construction, independent of the query point. -/
theorem c7_bounds (k : Kernel) (s : List ℚ) (lo up : ℚ) (x y : List ℚ) :
    (sample_dist.make k s lo up).bnd x = (lo, up) ∧
    (sample_dist.make k s lo up).bnd x = (sample_dist.make k s lo up).bnd y :=
  ⟨rfl, rfl⟩

/-- Claim C8: in `SampleDist` an omitted lower bound defaults to the sample
minimum and an omitted upper bound to the sample maximum: on a nonempty
sample list the constructed instance records `sampleMin`/`sampleMax` for the
omitted bounds and the supplied value otherwise, and the defaults really are
the minimum and maximum — members of the list bounding it below and above. -/
theorem c8_default_bounds (gk : List ℚ → Except LinAlgError Kernel)
    (h : ℚ) (t : List ℚ) (k : Kernel) (l u : ℚ)
    (hfit : gk (h :: t) = Except.ok k) :
    SampleDist gk (h :: t) none none =
      BuiltDist.kde
        (sample_dist.make k (h :: t) (sampleMin (h :: t)) (sampleMax (h :: t))) ∧
    SampleDist gk (h :: t) none (some u) =
      BuiltDist.kde (sample_dist.make k (h :: t) (sampleMin (h :: t)) u) ∧
    SampleDist gk (h :: t) (some l) none =
      BuiltDist.kde (sample_dist.make k (h :: t) l (sampleMax (h :: t))) ∧
    sampleMin (h :: t) ∈ h :: t ∧ (∀ y ∈ h :: t, sampleMin (h :: t) ≤ y) ∧
    sampleMax (h :: t) ∈ h :: t ∧ (∀ y ∈ h :: t, y ≤ sampleMax (h :: t)) := by
  refine ⟨by simp [SampleDist, hfit], by simp [SampleDist, hfit],
    by simp [SampleDist, hfit], ?_, ?_, ?_, ?_⟩
  · exact foldl_min_mem t h
  · exact foldl_min_le t h
  · exact foldl_max_mem t h
  · exact le_foldl_max t h

theorem c8_witness :
    gkOk [3, 1, 2] = Except.ok idKernel ∧
    (SampleDist gkOk [3, 1, 2] none none =
       BuiltDist.kde
         (sample_dist.make idKernel [3, 1, 2] (sampleMin [3, 1, 2])
           (sampleMax [3, 1, 2])) ∧
     SampleDist gkOk [3, 1, 2] none (some 7) =
       BuiltDist.kde (sample_dist.make idKernel [3, 1, 2] (sampleMin [3, 1, 2]) 7) ∧
     SampleDist gkOk [3, 1, 2] (some 0) none =
       BuiltDist.kde (sample_dist.make idKernel [3, 1, 2] 0 (sampleMax [3, 1, 2])) ∧
     sampleMin [3, 1, 2] ∈ [3, 1, 2] ∧
     (∀ y ∈ [3, 1, 2], sampleMin [3, 1, 2] ≤ y) ∧
     sampleMax [3, 1, 2] ∈ [3, 1, 2] ∧
     (∀ y ∈ [3, 1, 2], y ≤ sampleMax [3, 1, 2])) :=
  ⟨rfl, c8_default_bounds gkOk 3 [1, 2] idKernel 0 7 rfl⟩

/-- Claim C9: the bodies of `_cdf`, `_pdf`, `_bnd` perform no field
assignment: embedded as state transformers each returns the instance
unchanged, so repeated queries on the same instance, in any order, yield
identical results. -/
theorem c9_queries_pure (d : sample_dist) (x : List (List ℚ)) (y : List ℚ) :
    (d.cdfM x).2 = d ∧ (d.pdfM y).2 = d ∧ (d.bndM y).2 = d ∧
    ((d.cdfM x).2.cdfM x).1 = (d.cdfM x).1 ∧
    ((d.pdfM y).2.pdfM y).1 = (d.pdfM y).1 ∧
    ((d.bndM y).2.bndM y).1 = (d.bndM y).1 ∧
    (((d.pdfM y).2.bndM y).2.cdfM x).1 = (d.cdfM x).1 :=
  ⟨rfl, rfl, rfl, rfl, rfl, rfl, rfl⟩

/-- Claim C10: the normalization divisor of `_cdf` is `fup - flo`, which is
zero exactly when the two cached integrals coincide — in particular whenever
an instance is built with equal bounds — and `_cdf` performs the division
regardless: no guard exists at construction or query time, so on such an
instance every entry is divided by zero. -/
theorem c10_unguarded_division (k : Kernel) (s : List ℚ) (lo up : ℚ)
    (x : List (List ℚ)) :
    ((sample_dist.make k s lo up).fup - (sample_dist.make k s lo up).flo = 0 ↔
      k.integ0 up = k.integ0 lo) ∧
    ((sample_dist.make k s lo lo).fup - (sample_dist.make k s lo lo).flo = 0) ∧
    (sample_dist.make k s lo lo).cdf x =
      x.map (fun row => row.map (fun xi => (k.integ0 xi - k.integ0 lo) / 0)) := by
  refine ⟨sub_eq_zero, by simp [sample_dist.make], ?_⟩
  simp [sample_dist.cdf, sample_dist.cdfRaw, sample_dist.make, List.map_map,
    Function.comp, sub_self]
